import Mathlib

/-!
Shallow embedding of the `llm-eval-agentic` repository core:

* `src/game_logic/world.py`  — static world data (rooms, items, flags)
* `src/game_logic/engine.py` — the `GameEngine` state machine
* `src/eval/harness.py`      — the two turn-controller loops
  (`run_bash_eval`, `run_mcp_eval`), with the completion provider and
  the bash command runner modeled as oracles
* `src/eval/mcp_runner.py`   — `McpRunner.execute_tool` mapping tool
  invocations to engine commands

Python strings are modeled as Lean `String`, Python sets of item ids as
duplicate-free `List`s (updates use `List.insert`, which is a no-op on a
present element, matching `set.add`), dicts with a fixed key set as
structures, and the Python `str` helpers (`strip`, `lower`, `upper`,
`split`, `replace`) as explicit functions over the character list.
-/

namespace Adventure

/-- Room identities, the keys of `ROOMS` in `world.py`. -/
inductive RoomId
  | airlock
  | corridor
  | bridge
  | engine_room
  | med_bay
deriving DecidableEq

/-- Item identities, the keys of `ITEMS` in `world.py`. -/
inductive ItemId
  | flashlight
  | keycard
  | crew_log
deriving DecidableEq

/-- `ROOMS[r]["name"]`. -/
def roomName : RoomId → String
  | .airlock => "Airlock"
  | .corridor => "Corridor"
  | .bridge => "Bridge"
  | .engine_room => "Engine Room"
  | .med_bay => "Med Bay"

/-- `ROOMS[r]["exits"]`, in dict insertion order (used for the
"Exits: ..." listing). -/
def exitsOf : RoomId → List (String × RoomId)
  | .airlock => [("north", .corridor)]
  | .corridor =>
      [("south", .airlock), ("north", .bridge),
       ("east", .engine_room), ("west", .med_bay)]
  | .bridge => [("south", .corridor)]
  | .engine_room => [("west", .corridor)]
  | .med_bay => [("east", .corridor)]

def airlockDescription : String :=
  "You are in the station's airlock. Emergency lights pulse red. The outer hatch is sealed shut — vacuum on the other side. A door leads into the corridor to the north."

def corridorDescription : String :=
  "A long metal corridor stretches before you. Sparks drip from damaged ceiling panels. Doors lead to the bridge (north), engine room (east), and med bay (west). The airlock is to the south."

def bridgeDescription : String :=
  "The bridge is silent. A large console dominates the center of the room. Its screen is dark — it looks like it needs a keycard to activate. The corridor is to the south."

def engineRoomDark : String :=
  "The engine room is pitch black. You can barely see anything. You hear the hum of dormant machinery. Near the entrance, you feel something on a shelf — it might be a flashlight. The corridor is back to the west."

def engineRoomLit : String :=
  "The flashlight reveals a massive engine core surrounded by catwalks. Under a pile of debris near the wall, you spot a glinting keycard. The corridor is back to the west."

def engineRoomLooted : String :=
  "The engine room is lit by your flashlight. The debris pile has been disturbed where you found the keycard. The corridor is back to the west."

def medBayDescription : String :=
  "A small medical bay with overturned supply carts. A crew log sits on the counter — it might have useful information. The corridor is to the east."

def medBayLooted : String :=
  "A small medical bay with overturned supply carts. The counter is bare — you already took the crew log. The corridor is to the east."

/-- `ROOMS[r]["description"]`. The `engine_room` entry of `world.py` has
no `"description"` key (only dark/lit/looted variants) and the engine
never reads it for that room; it is mapped to `""` here. -/
def description : RoomId → String
  | .airlock => airlockDescription
  | .corridor => corridorDescription
  | .bridge => bridgeDescription
  | .engine_room => ""
  | .med_bay => medBayDescription

/-- `ITEMS[i]["name"]`. -/
def itemName : ItemId → String
  | .flashlight => "flashlight"
  | .keycard => "keycard"
  | .crew_log => "crew log"

/-- `ITEMS[i]["location"]`. -/
def itemLocation : ItemId → RoomId
  | .flashlight => .engine_room
  | .keycard => .engine_room
  | .crew_log => .med_bay

/-- `ITEMS[i].get("take_condition")`. -/
def takeCondition : ItemId → Option String
  | .keycard => some "engine_room_lit"
  | _ => none

/-- `ITEMS[i].get("take_fail")` (the specific failure narrative). -/
def takeFailText : ItemId → Option String
  | .keycard => some "It's too dark to find anything in here."
  | _ => none

/-- `ITEMS["crew_log"]["read_text"]`. -/
def crewLogReadText : String :=
  "CREW LOG - Day 247: Power failure hit deck 3. Captain stashed the emergency keycard in the engine room before the lights went out. Grab a flashlight if you head in there — it's pitch black."

/-- The keys of `ITEMS` in dict insertion order, the order the `for`
loops in `_take` and `_use` iterate. -/
def itemsOrder : List ItemId := [.flashlight, .keycard, .crew_log]

/-- The puzzle flags. `INITIAL_FLAGS` has exactly these two keys and the
engine only ever writes these two, so the dict is modeled as a
structure. -/
structure Flags where
  engine_room_lit : Bool
  console_activated : Bool
deriving DecidableEq

/-- `self.flags.get(k, False)`: string-keyed lookup with default
`False`. -/
def Flags.get (f : Flags) (k : String) : Bool :=
  if k = "engine_room_lit" then f.engine_room_lit
  else if k = "console_activated" then f.console_activated
  else false

/-- `INITIAL_FLAGS` (all start `False`). -/
def initialFlags : Flags := ⟨false, false⟩

/-- `START_ROOM`. -/
def startRoom : RoomId := .airlock

/-- The mutable state of a `GameEngine` instance. -/
structure GameState where
  current_room : RoomId
  inventory : List ItemId
  flags : Flags
  taken_items : List ItemId
  moves : Nat
deriving DecidableEq

/-- `GameEngine.__init__`. -/
def initState : GameState := ⟨startRoom, [], initialFlags, [], 0⟩

/-! ### Python string helpers (over the character list) -/

/-- Python `str.strip()`: drop whitespace from both ends. -/
def pyStrip (s : String) : String :=
  String.mk
    (((s.toList.dropWhile Char.isWhitespace).reverse.dropWhile
        Char.isWhitespace).reverse)

/-- Python `str.lower()` (ASCII). -/
def pyLower (s : String) : String := String.mk (s.toList.map Char.toLower)

/-- Python `str.upper()` (ASCII). -/
def pyUpper (s : String) : String := String.mk (s.toList.map Char.toUpper)

/-- First component of `command.split(maxsplit=1)`: the characters up to
the first whitespace. -/
def firstWord (s : String) : String :=
  String.mk (s.toList.takeWhile (fun c => !c.isWhitespace))

/-- Second component of `command.split(maxsplit=1)` (or `""` when there
is none): the remainder after the first whitespace run. -/
def restAfterFirst (s : String) : String :=
  String.mk
    ((s.toList.dropWhile (fun c => !c.isWhitespace)).dropWhile
      Char.isWhitespace)

/-- Python `item_name.replace("_", " ")`. -/
def underscoreToSpace (s : String) : String :=
  String.mk (s.toList.map (fun c => if c = '_' then ' ' else c))

/-- `command.strip().lower()` at the top of `GameEngine.execute`. -/
def normalize (command : String) : String := pyLower (pyStrip command)

/-! ### Command handlers (`GameEngine._look` … `GameEngine._help`)

Each handler takes the engine state (`self`, with the move counter
already incremented by `execute`) and the argument string, and returns
the updated state together with the narrative text. -/

/-- `GameEngine._look`. -/
def lookHandler (s : GameState) (_arg : String) : GameState × String :=
  if s.current_room = RoomId.engine_room then
    if s.flags.engine_room_lit = false then (s, engineRoomDark)
    else if ItemId.keycard ∉ s.taken_items then (s, engineRoomLit)
    else (s, engineRoomLooted)
  else if s.current_room = RoomId.med_bay ∧ ItemId.crew_log ∈ s.taken_items then
    (s, medBayLooted)
  else (s, description s.current_room)

/-- `GameEngine._enter_room` (the state is the post-move state; the
method only builds text). -/
def enterRoomText (s : GameState) : String :=
  let pre := "You enter the " ++ roomName s.current_room ++ ".\n\n"
  if s.current_room = RoomId.engine_room ∧ s.flags.engine_room_lit = false then
    pre ++ engineRoomDark
  else if s.current_room = RoomId.engine_room then
    if ItemId.keycard ∉ s.taken_items then pre ++ engineRoomLit
    else pre ++ engineRoomLooted
  else if s.current_room = RoomId.med_bay ∧ ItemId.crew_log ∈ s.taken_items then
    pre ++ medBayLooted
  else pre ++ description s.current_room

/-- `GameEngine._go`. -/
def goHandler (s : GameState) (direction : String) : GameState × String :=
  if direction = "" then
    (s, "Go where? Specify a direction (north, south, east, west).")
  else
    match (exitsOf s.current_room).find? (fun e => e.1 == direction) with
    | none =>
        (s, "You can't go " ++ direction ++ ". Exits: "
              ++ String.intercalate ", " ((exitsOf s.current_room).map (fun e => e.1))
              ++ ".")
    | some e =>
        let s := { s with current_room := e.2 }
        (s, enterRoomText s)

/-- The test `if condition and not self.flags.get(condition, False)` in
`GameEngine._take`. -/
def takeBlocked (s : GameState) (i : ItemId) : Bool :=
  match takeCondition i with
  | some c => !(s.flags.get c)
  | none => false

/-- `GameEngine._take`. -/
def takeHandler (s : GameState) (arg : String) : GameState × String :=
  if arg = "" then (s, "Take what?")
  else
    let item_name := underscoreToSpace arg
    match itemsOrder.find?
        (fun i => itemName i == item_name && itemLocation i == s.current_room) with
    | none => (s, "There's no '" ++ item_name ++ "' here to take.")
    | some i =>
        if i ∈ s.taken_items then
          (s, "You already took the " ++ item_name ++ ".")
        else if takeBlocked s i then
          (s, (takeFailText i).getD "You can't take that right now.")
        else
          ({ s with inventory := s.inventory.insert i,
                    taken_items := s.taken_items.insert i },
           "You pick up the " ++ itemName i ++ ".")

def flashlightOnText : String :=
  "You switch on the flashlight. The beam cuts through the darkness. You can see the engine core now — and something glinting under a pile of debris near the wall. It looks like a keycard."

/-- The victory narrative, with the move counter interpolated
(`f"Completed in {self.moves} moves."`). -/
def victoryText (moves : Nat) : String :=
  "You slide the keycard into the console. Screens flicker to life. The station's distress beacon activates — a rescue signal pulses out into deep space.\n\n*** YOU WIN ***\nCompleted in "
    ++ toString moves ++ " moves."

/-- `GameEngine._use`. -/
def useHandler (s : GameState) (arg : String) : GameState × String :=
  if arg = "" then (s, "Use what?")
  else
    let item_name := underscoreToSpace arg
    match itemsOrder.find? (fun i => itemName i == item_name) with
    | none => (s, "You don't have a '" ++ item_name ++ "'.")
    | some i =>
        if i ∉ s.inventory then (s, "You don't have a '" ++ item_name ++ "'.")
        else if i = ItemId.flashlight ∧ s.current_room = RoomId.engine_room then
          if s.flags.engine_room_lit then
            (s, "The flashlight is already on. The room is lit.")
          else
            ({ s with flags := { s.flags with engine_room_lit := true } },
             flashlightOnText)
        else if i = ItemId.flashlight then
          (s, "You wave the flashlight around. Nothing interesting here.")
        else if i = ItemId.keycard ∧ s.current_room = RoomId.bridge then
          ({ s with flags := { s.flags with console_activated := true } },
           victoryText s.moves)
        else if i = ItemId.keycard then
          (s, "There's nothing to use the keycard on here.")
        else if i = ItemId.crew_log then
          (s, "You read the crew log:\n\n" ++ crewLogReadText)
        else (s, "You can't figure out how to use the " ++ item_name ++ " here.")

/-- `GameEngine._read`. -/
def readHandler (s : GameState) (arg : String) : GameState × String :=
  if arg = "" then (s, "Read what?")
  else
    let item_name := underscoreToSpace arg
    if item_name = "crew log" ∧ ItemId.crew_log ∈ s.inventory then
      (s, "You read the crew log:\n\n" ++ crewLogReadText)
    else if item_name = "crew log" then (s, "You don't have the crew log.")
    else (s, "You can't read '" ++ item_name ++ "'.")

/-- `sorted(self.inventory)`: Python sorts the item-id strings, and
`"crew_log" < "flashlight" < "keycard"`, so sorting a duplicate-free
set is this filter of the sorted full enumeration. -/
def sortedInventory (inv : List ItemId) : List ItemId :=
  [ItemId.crew_log, ItemId.flashlight, ItemId.keycard].filter
    (fun i => inv.contains i)

/-- `GameEngine._inventory`. -/
def inventoryHandler (s : GameState) (_arg : String) : GameState × String :=
  if s.inventory = [] then (s, "You aren't carrying anything.")
  else
    (s, "You are carrying: "
          ++ String.intercalate ", " ((sortedInventory s.inventory).map itemName)
          ++ ".")

def helpText : String :=
  "Commands:\n  look          - Examine your surroundings\n  go <direction> - Move (north, south, east, west)\n  take <item>   - Pick up an item\n  use <item>    - Use an item\n  read <item>   - Read an item\n  inventory     - Check what you're carrying\n  help          - Show this message"

/-- `GameEngine._help`. -/
def helpHandler (s : GameState) (_arg : String) : GameState × String :=
  (s, helpText)

/-- The keys of the `dispatch` dict in `GameEngine.execute`. -/
def recognizedVerbs : List String :=
  ["look", "go", "take", "use", "inventory", "help", "read"]

/-- The dispatch step of `GameEngine.execute`: on a recognized verb the
move counter is incremented and the handler runs; an unknown verb
returns guidance without touching state. -/
def executeVerb (s : GameState) (verb arg : String) : GameState × String :=
  if verb = "look" then lookHandler { s with moves := s.moves + 1 } arg
  else if verb = "go" then goHandler { s with moves := s.moves + 1 } arg
  else if verb = "take" then takeHandler { s with moves := s.moves + 1 } arg
  else if verb = "use" then useHandler { s with moves := s.moves + 1 } arg
  else if verb = "inventory" then inventoryHandler { s with moves := s.moves + 1 } arg
  else if verb = "help" then helpHandler { s with moves := s.moves + 1 } arg
  else if verb = "read" then readHandler { s with moves := s.moves + 1 } arg
  else (s, "Unknown command: '" ++ verb ++ "'. Type 'help' for commands.")

/-- `GameEngine.execute`. -/
def execute (s : GameState) (command : String) : GameState × String :=
  if normalize command = "" then
    (s, "Say something. Type 'help' for commands.")
  else
    executeVerb s (firstWord (normalize command))
      (restAfterFirst (normalize command))

/-- `GameEngine.is_won`. -/
def is_won (s : GameState) : Bool := s.flags.get "console_activated"

/-- A playthrough: fold `execute` over a command list from a given
state. -/
def runCommands (s : GameState) (cmds : List String) : GameState :=
  cmds.foldl (fun s c => (execute s c).1) s

/-- The number of commands of a list whose (trimmed, lower-cased) first
word is a recognized verb. -/
def recognizedCount (cmds : List String) : Nat :=
  (cmds.filter (fun c => decide (firstWord (normalize c) ∈ recognizedVerbs))).length

/-! ### Eval harness (`src/eval/harness.py`)

The completion provider (`litellm.completion`) is modeled as the finite
sequence of replies it will produce: each element is `some` response or
`none` for a raised exception (the `[API ERROR]` path).  Conversation
messages only flow back into the provider, so the `messages` list and
the log output are not modeled; the loop-detection branch of
`run_bash_eval` only injects such a message and is therefore invisible
here.  The bash world runner (`BashRunner`, a subprocess wrapper) is an
oracle: an abstract state type with a command step and a win check. -/

/-- Substring test on character lists (Python's `in` on `str`). -/
def containsSub (pat : List Char) : List Char → Bool
  | [] => decide (pat = [])
  | c :: rest => pat.isPrefixOf (c :: rest) || containsSub pat rest

/-- `"GIVE_UP" in reply.upper()`. -/
def containsGiveUp (reply : String) : Bool :=
  containsSub "GIVE_UP".toList (pyUpper reply).toList

/-- `reply.split("\n")[0]`: the characters before the first newline. -/
def firstLine (s : String) : String :=
  String.mk (s.toList.takeWhile (fun c => c != '\n'))

/-- Python `command.strip("\x60")`: drop backticks from both ends. -/
def stripBacktick (s : String) : String :=
  String.mk
    (((s.toList.dropWhile (fun c => c == Char.ofNat 96)).reverse.dropWhile
        (fun c => c == Char.ofNat 96)).reverse)

/-- Whether the character list contains the stray marker `<|`. -/
def hasMarker : List Char → Bool
  | [] => false
  | '<' :: '|' :: _ => true
  | _ :: rest => hasMarker rest

/-- The characters before the first occurrence of `<|`
(`command[:command.index("<|")]`). -/
def beforeMarker : List Char → List Char
  | [] => []
  | '<' :: '|' :: _ => []
  | c :: rest => c :: beforeMarker rest

/-- The text-modality action normalizer in `run_bash_eval`: first line,
backticks stripped, truncated at a stray `<|` marker. -/
def extractCommand (reply : String) : String :=
  let command := firstLine (pyStrip reply)
  let command := pyStrip (stripBacktick command)
  if hasMarker command.toList then pyStrip (String.mk (beforeMarker command.toList))
  else command

/-- The trailing-empty count computed by the `for c in reversed(commands)`
loop in `run_bash_eval`. -/
def emptyStreakOf (commands : List String) : Nat :=
  ((commands.reverse).takeWhile (fun c => c == "")).length

/-- One provider reply in the bash modality (`choice.message.content`
plus the usage counts). -/
structure BashResp where
  content : String
  prompt_tokens : Nat
  completion_tokens : Nat
deriving DecidableEq

/-- Why a playthrough loop stopped.  `outOfResponses` is not a behavior
of the source: it marks the end of the modeled provider reply sequence
(the Python loop would simply issue another provider request there). -/
inductive StopReason
  | tokenLimit
  | apiError
  | gaveUp
  | forcedStop
  | won
  | outOfResponses
deriving DecidableEq

/-- The loop-local variables of `run_bash_eval`, over an abstract runner
state `RS`.  `providerCalls` is an observer counting completion
requests issued; it is not a variable of the source and nothing in the
loop reads it. -/
structure BashState (RS : Type) where
  total_prompt_tokens : Nat
  total_completion_tokens : Nat
  turns : Nat
  commands : List String
  runner : RS
  providerCalls : Nat
deriving DecidableEq

/-- The terminal record of a bash-modality playthrough (the fields of
`_finish` that the loop determines). -/
structure BashResult (RS : Type) where
  final : BashState RS
  won : Bool
  gave_up : Bool
  reason : StopReason
deriving DecidableEq

/-- The `while True` loop of `run_bash_eval`.  `runCmd` and `checkWin`
are the `BashRunner` oracle; the provider is the `resps` sequence.  The
budget check at the top of the loop body precedes the provider request,
so it is repeated at the head of each reply shape (the shape of the
next reply is only determined by the request the check guards). -/
def runBashEval {RS : Type} (runCmd : RS → String → RS × String)
    (checkWin : RS → Bool) (token_limit : Nat) :
    BashState RS → List (Option BashResp) → BashResult RS
  | st, [] =>
      if st.total_prompt_tokens + st.total_completion_tokens ≥ token_limit then
        ⟨st, false, false, .tokenLimit⟩
      else ⟨st, false, false, .outOfResponses⟩
  | st, none :: _ =>
      if st.total_prompt_tokens + st.total_completion_tokens ≥ token_limit then
        ⟨st, false, false, .tokenLimit⟩
      else ⟨{ st with providerCalls := st.providerCalls + 1 }, false, false, .apiError⟩
  | st, some r :: rest =>
      if st.total_prompt_tokens + st.total_completion_tokens ≥ token_limit then
        ⟨st, false, false, .tokenLimit⟩
      else
          let st := { st with
            providerCalls := st.providerCalls + 1,
            total_prompt_tokens := st.total_prompt_tokens + r.prompt_tokens,
            total_completion_tokens := st.total_completion_tokens + r.completion_tokens,
            turns := st.turns + 1 }
          let reply := pyStrip r.content
          if containsGiveUp reply then ⟨st, false, true, .gaveUp⟩
          else
            let command := extractCommand reply
            let st := { st with commands := st.commands ++ [command] }
            if command = "" then
              if emptyStreakOf st.commands ≥ 5 then ⟨st, false, false, .forcedStop⟩
              else runBashEval runCmd checkWin token_limit st rest
            else
              -- the loop-detection branch only appends a corrective
              -- message to the (unmodeled) conversation
              let rs := (runCmd st.runner command).1
              let st := { st with runner := rs }
              if checkWin rs then ⟨st, true, false, .won⟩
              else runBashEval runCmd checkWin token_limit st rest

/-! ### MCP modality (`run_mcp_eval` with `McpRunner`) -/

/-- One structured tool invocation; `args` is the parsed JSON argument
object (malformed payloads parse to the empty object). -/
structure ToolCall where
  name : String
  args : List (String × String)
deriving DecidableEq

/-- One provider reply in the tool-call modality. -/
structure McpResp where
  content : Option String
  tool_calls : List ToolCall
  prompt_tokens : Nat
  completion_tokens : Nat
deriving DecidableEq

/-- `arguments.get(k, "")`. -/
def getArg (args : List (String × String)) (k : String) : String :=
  match args.find? (fun kv => kv.1 == k) with
  | some kv => kv.2
  | none => ""

/-- `McpRunner.execute_tool`: map a tool invocation to an engine
command. -/
def executeTool (e : GameState) (tool_name : String)
    (args : List (String × String)) : GameState × String :=
  if tool_name = "look" then execute e "look"
  else if tool_name = "go" then execute e ("go " ++ getArg args "direction")
  else if tool_name = "take" then execute e ("take " ++ getArg args "item")
  else if tool_name = "use" then execute e ("use " ++ getArg args "item")
  else if tool_name = "read" then execute e ("read " ++ getArg args "item")
  else if tool_name = "inventory" then execute e "inventory"
  else (e, "Unknown tool: '" ++ tool_name ++ "'")

/-- Result of the `for tc in choice.message.tool_calls` loop. -/
structure ToolLoopOut where
  engine : GameState
  log : List ToolCall
  won : Bool
deriving DecidableEq

/-- The inner tool loop of `run_mcp_eval`: log and execute each call in
order, stopping early when `runner.check_win()` (that is,
`engine.is_won()`) becomes true. -/
def runToolCalls (e : GameState) (log : List ToolCall) :
    List ToolCall → ToolLoopOut
  | [] => ⟨e, log, false⟩
  | tc :: rest =>
      let e2 := (executeTool e tc.name tc.args).1
      -- the tool result text is only appended to the (unmodeled)
      -- conversation
      if is_won e2 then ⟨e2, log ++ [tc], true⟩
      else runToolCalls e2 (log ++ [tc]) rest

/-- The loop-local variables of `run_mcp_eval`.  `providerCalls` is the
same observer as in `BashState`. -/
structure McpState where
  total_prompt_tokens : Nat
  total_completion_tokens : Nat
  turns : Nat
  tool_calls_log : List ToolCall
  engine : GameState
  empty_streak : Nat
  providerCalls : Nat
deriving DecidableEq

/-- The terminal record of a tool-call-modality playthrough. -/
structure McpResult where
  final : McpState
  won : Bool
  gave_up : Bool
  reason : StopReason
deriving DecidableEq

/-- The `while True` loop of `run_mcp_eval`; the budget guard is
distributed over the reply shapes exactly as in `runBashEval`. -/
def runMcpEval (token_limit : Nat) :
    McpState → List (Option McpResp) → McpResult
  | st, [] =>
      if st.total_prompt_tokens + st.total_completion_tokens ≥ token_limit then
        ⟨st, false, false, .tokenLimit⟩
      else ⟨st, false, false, .outOfResponses⟩
  | st, none :: _ =>
      if st.total_prompt_tokens + st.total_completion_tokens ≥ token_limit then
        ⟨st, false, false, .tokenLimit⟩
      else ⟨{ st with providerCalls := st.providerCalls + 1 }, false, false, .apiError⟩
  | st, some r :: rest =>
      if st.total_prompt_tokens + st.total_completion_tokens ≥ token_limit then
        ⟨st, false, false, .tokenLimit⟩
      else
          let st := { st with
            providerCalls := st.providerCalls + 1,
            total_prompt_tokens := st.total_prompt_tokens + r.prompt_tokens,
            total_completion_tokens := st.total_completion_tokens + r.completion_tokens,
            turns := st.turns + 1 }
          if r.tool_calls ≠ [] then
            let st := { st with empty_streak := 0 }
            let out := runToolCalls st.engine st.tool_calls_log r.tool_calls
            let st := { st with engine := out.engine, tool_calls_log := out.log }
            if out.won then ⟨st, true, false, .won⟩
            else runMcpEval token_limit st rest
          else
            match r.content with
            | some content =>
                if content ≠ "" then
                  let content := pyStrip content
                  if containsGiveUp content then ⟨st, false, true, .gaveUp⟩
                  else runMcpEval token_limit { st with empty_streak := 0 } rest
                else
                  let st := { st with empty_streak := st.empty_streak + 1 }
                  if st.empty_streak ≥ 5 then ⟨st, false, false, .forcedStop⟩
                  else runMcpEval token_limit st rest
            | none =>
                let st := { st with empty_streak := st.empty_streak + 1 }
                if st.empty_streak ≥ 5 then ⟨st, false, false, .forcedStop⟩
                else runMcpEval token_limit st rest

/-- Per-reply token usage (`usage.prompt_tokens + usage.completion_tokens`);
a raised provider call reports none. -/
def bashRespTokens : Option BashResp → Nat
  | some r => r.prompt_tokens + r.completion_tokens
  | none => 0

/-- Per-reply token usage in the tool-call modality. -/
def mcpRespTokens : Option McpResp → Nat
  | some r => r.prompt_tokens + r.completion_tokens
  | none => 0

/-- Total token usage of the first `k` provider replies. -/
def tokensOfPrefix {α : Type} (f : α → Nat) (resps : List α) (k : Nat) : Nat :=
  ((resps.take k).map f).sum

/-! ### Sample states used by witnesses and counterexamples -/

/-- A reachable state: engine room entered with the flashlight switched
on (four recognized commands from a fresh engine). -/
def litEngineState : GameState :=
  runCommands initState ["go north", "go east", "take flashlight", "use flashlight"]

/-- A reachable state: flashlight taken in the dark engine room. -/
def darkFlashlightState : GameState :=
  runCommands initState ["go north", "go east", "take flashlight"]

/-- A reachable state: crew log taken in the med bay. -/
def crewLogState : GameState :=
  runCommands initState ["go north", "go west", "take crew log"]

/-- The seven-command trace that reaches the bridge holding the
keycard. -/
def preWinTrace : List String :=
  ["go north", "go east", "take flashlight", "use flashlight",
   "take keycard", "go west", "go north"]

/-- A (non-reachable, membership-wise arbitrary) won state, used to
witness absorption of the terminal flag. -/
def wonExampleState : GameState :=
  ⟨.bridge, [.flashlight, .keycard], ⟨true, true⟩, [.flashlight, .keycard], 8⟩

/-- Two states agreeing on (room, flags, taken-items) but differing in
inventory and move count, witnessing look-purity. -/
def pureStateA : GameState := ⟨.med_bay, [], ⟨false, false⟩, [.crew_log], 3⟩

/-- See `pureStateA`. -/
def pureStateB : GameState := ⟨.med_bay, [.flashlight], ⟨false, false⟩, [.crew_log], 99⟩

/-- An initial bash controller state over the trivial runner. -/
def bashInitUnit : BashState Unit := ⟨0, 0, 0, [], (), 0⟩

/-- An initial MCP controller state (fresh engine). -/
def mcpInit : McpState := ⟨0, 0, 0, [], initState, 0, 0⟩

/-- The provider reply that refutes the give-up claim in the tool-call
modality: content signals give-up, but a tool call is present. -/
def giveUpToolResp : McpResp := ⟨some "GIVE_UP", [⟨"look", []⟩], 1, 1⟩

/-! ## Helper lemmas about the engine -/

@[simp] theorem lookHandler_fst (s : GameState) (a : String) :
    (lookHandler s a).1 = s := by
  simp only [lookHandler]
  split_ifs <;> rfl

@[simp] theorem readHandler_fst (s : GameState) (a : String) :
    (readHandler s a).1 = s := by
  simp only [readHandler]
  split_ifs <;> rfl

@[simp] theorem inventoryHandler_fst (s : GameState) (a : String) :
    (inventoryHandler s a).1 = s := by
  simp only [inventoryHandler]
  split_ifs <;> rfl

@[simp] theorem helpHandler_fst (s : GameState) (a : String) :
    (helpHandler s a).1 = s := rfl

theorem goHandler_fst (s : GameState) (a : String) :
    ∃ r, (goHandler s a).1 = { s with current_room := r } := by
  simp only [goHandler]
  split
  · exact ⟨s.current_room, by cases s; rfl⟩
  · split
    · exact ⟨s.current_room, by cases s; rfl⟩
    · exact ⟨_, rfl⟩

@[simp] theorem goHandler_flags (s : GameState) (a : String) :
    (goHandler s a).1.flags = s.flags := by
  obtain ⟨r, h⟩ := goHandler_fst s a; rw [h]

@[simp] theorem goHandler_inventory (s : GameState) (a : String) :
    (goHandler s a).1.inventory = s.inventory := by
  obtain ⟨r, h⟩ := goHandler_fst s a; rw [h]

@[simp] theorem goHandler_taken (s : GameState) (a : String) :
    (goHandler s a).1.taken_items = s.taken_items := by
  obtain ⟨r, h⟩ := goHandler_fst s a; rw [h]

@[simp] theorem goHandler_moves (s : GameState) (a : String) :
    (goHandler s a).1.moves = s.moves := by
  obtain ⟨r, h⟩ := goHandler_fst s a; rw [h]

theorem takeHandler_fst (s : GameState) (a : String) :
    (takeHandler s a).1 = s ∨
      ∃ i, (takeHandler s a).1 =
        { s with inventory := s.inventory.insert i,
                 taken_items := s.taken_items.insert i } := by
  simp only [takeHandler]
  split
  · exact Or.inl rfl
  · split
    · exact Or.inl rfl
    · split
      · exact Or.inl rfl
      · split
        · exact Or.inl rfl
        · exact Or.inr ⟨_, rfl⟩

@[simp] theorem takeHandler_flags (s : GameState) (a : String) :
    (takeHandler s a).1.flags = s.flags := by
  rcases takeHandler_fst s a with h | ⟨i, h⟩ <;> rw [h]

@[simp] theorem takeHandler_moves (s : GameState) (a : String) :
    (takeHandler s a).1.moves = s.moves := by
  rcases takeHandler_fst s a with h | ⟨i, h⟩ <;> rw [h]

theorem useHandler_shape (s : GameState) (a : String) :
    (useHandler s a).1 = s
    ∨ (useHandler s a).1 = { s with flags := { s.flags with engine_room_lit := true } }
    ∨ ((useHandler s a).1 = { s with flags := { s.flags with console_activated := true } }
        ∧ underscoreToSpace a = "keycard" ∧ s.current_room = RoomId.bridge
        ∧ ItemId.keycard ∈ s.inventory) := by
  simp only [useHandler]
  split
  · exact Or.inl rfl
  · rename_i hne
    cases hfind : itemsOrder.find? (fun i => itemName i == underscoreToSpace a) with
    | none => exact Or.inl rfl
    | some i =>
      have hp := List.find?_some hfind
      have hname : itemName i = underscoreToSpace a := by
        simpa using hp
      split
      · exact Or.inl rfl
      · rename_i j hj
        injection hj with hj
        subst hj
        split
        · exact Or.inl rfl
        · rename_i hinv
          rw [not_not] at hinv
          split
          · split
            · exact Or.inl rfl
            · exact Or.inr (Or.inl rfl)
          · split
            · exact Or.inl rfl
            · split
              · rename_i hkey
                refine Or.inr (Or.inr ⟨rfl, ?_, hkey.2, ?_⟩)
                · rw [← hname, hkey.1]; rfl
                · rw [← hkey.1]; exact hinv
              · split
                · exact Or.inl rfl
                · split
                  · exact Or.inl rfl
                  · exact Or.inl rfl

@[simp] theorem useHandler_moves (s : GameState) (a : String) :
    (useHandler s a).1.moves = s.moves := by
  rcases useHandler_shape s a with h | h | ⟨h, -⟩ <;> rw [h]

@[simp] theorem useHandler_inventory (s : GameState) (a : String) :
    (useHandler s a).1.inventory = s.inventory := by
  rcases useHandler_shape s a with h | h | ⟨h, -⟩ <;> rw [h]

@[simp] theorem useHandler_taken (s : GameState) (a : String) :
    (useHandler s a).1.taken_items = s.taken_items := by
  rcases useHandler_shape s a with h | h | ⟨h, -⟩ <;> rw [h]

/-- Console-flag behavior of `_use`: either the flag is preserved, or it
is set to `true` by the keycard on the bridge while the keycard is
held. -/
theorem useHandler_console (s : GameState) (a : String) :
    (useHandler s a).1.flags.console_activated = s.flags.console_activated
    ∨ ((useHandler s a).1.flags.console_activated = true
        ∧ underscoreToSpace a = "keycard" ∧ s.current_room = RoomId.bridge
        ∧ ItemId.keycard ∈ s.inventory) := by
  rcases useHandler_shape s a with h | h | ⟨h, h2⟩
  · rw [h]; exact Or.inl rfl
  · rw [h]; exact Or.inl rfl
  · rw [h]; exact Or.inr ⟨rfl, h2⟩

/-- How the dispatch step treats the move counter: recognized verbs
increment it, anything else leaves the pair untouched and returns the
unknown-command guidance. -/
theorem executeVerb_moves (s : GameState) (v a : String) :
    (v ∈ recognizedVerbs → (executeVerb s v a).1.moves = s.moves + 1)
    ∧ (v ∉ recognizedVerbs →
        executeVerb s v a =
          (s, "Unknown command: '" ++ v ++ "'. Type 'help' for commands.")) := by
  constructor
  · intro hv
    simp only [recognizedVerbs, List.mem_cons, List.not_mem_nil, or_false] at hv
    unfold executeVerb
    rcases hv with h | h | h | h | h | h | h <;> subst h <;> simp
  · intro hv
    simp only [recognizedVerbs, List.mem_cons, List.not_mem_nil, or_false,
      not_or] at hv
    obtain ⟨h1, h2, h3, h4, h5, h6, h7⟩ := hv
    unfold executeVerb
    simp [h1, h2, h3, h4, h5, h6, h7]

/-- The dispatch step either leaves the inventory and taken-items sets
unchanged, or inserts one item identity into both. -/
theorem executeVerb_sets (s : GameState) (v a : String) :
    ((executeVerb s v a).1.inventory = s.inventory
      ∧ (executeVerb s v a).1.taken_items = s.taken_items)
    ∨ ∃ i, (executeVerb s v a).1.inventory = s.inventory.insert i
        ∧ (executeVerb s v a).1.taken_items = s.taken_items.insert i := by
  unfold executeVerb
  split_ifs with h1 h2 h3 h4 h5 h6 h7
  · simp
  · simp
  · rcases takeHandler_fst { s with moves := s.moves + 1 } a with h | ⟨i, h⟩
    · rw [h]; exact Or.inl ⟨rfl, rfl⟩
    · rw [h]; exact Or.inr ⟨i, rfl, rfl⟩
  · simp
  · simp
  · simp
  · simp
  · exact Or.inl ⟨rfl, rfl⟩

/-- The dispatch step either preserves the console flag or sets it via
`use keycard` on the bridge while the keycard is held. -/
theorem executeVerb_console (s : GameState) (v a : String) :
    (executeVerb s v a).1.flags.console_activated = s.flags.console_activated
    ∨ ((executeVerb s v a).1.flags.console_activated = true
        ∧ v = "use" ∧ underscoreToSpace a = "keycard"
        ∧ s.current_room = RoomId.bridge ∧ ItemId.keycard ∈ s.inventory) := by
  unfold executeVerb
  split_ifs with h1 h2 h3 h4 h5 h6 h7
  · simp
  · simp
  · simp
  · rcases useHandler_console { s with moves := s.moves + 1 } a with h | ⟨h, ha, hr, hi⟩
    · exact Or.inl h
    · exact Or.inr ⟨h, h4, ha, hr, hi⟩
  · simp
  · simp
  · simp
  · exact Or.inl rfl

/-- `execute` version of `executeVerb_moves`: the move counter
increments exactly on commands whose first word is recognized. -/
theorem execute_moves (s : GameState) (c : String) :
    (execute s c).1.moves =
      if firstWord (normalize c) ∈ recognizedVerbs then s.moves + 1
      else s.moves := by
  unfold execute
  split_ifs with h1 h2 h2
  · exfalso
    rw [h1] at h2
    revert h2
    decide
  · rfl
  · exact (executeVerb_moves s _ _).1 h2
  · rw [(executeVerb_moves s _ _).2 h2]

/-- `execute` version of `executeVerb_sets`. -/
theorem execute_sets (s : GameState) (c : String) :
    ((execute s c).1.inventory = s.inventory
      ∧ (execute s c).1.taken_items = s.taken_items)
    ∨ ∃ i, (execute s c).1.inventory = s.inventory.insert i
        ∧ (execute s c).1.taken_items = s.taken_items.insert i := by
  unfold execute
  split_ifs with h1
  · exact Or.inl ⟨rfl, rfl⟩
  · exact executeVerb_sets s _ _

/-- `execute` version of `executeVerb_console`. -/
theorem execute_console (s : GameState) (c : String) :
    (execute s c).1.flags.console_activated = s.flags.console_activated
    ∨ ((execute s c).1.flags.console_activated = true
        ∧ firstWord (normalize c) = "use"
        ∧ underscoreToSpace (restAfterFirst (normalize c)) = "keycard"
        ∧ s.current_room = RoomId.bridge ∧ ItemId.keycard ∈ s.inventory) := by
  unfold execute
  split_ifs with h1
  · exact Or.inl rfl
  · exact executeVerb_console s _ _

/-- Move counters along a playthrough count the recognized commands. -/
theorem runCommands_moves (cmds : List String) (s : GameState) :
    (runCommands s cmds).moves = s.moves + recognizedCount cmds := by
  induction cmds generalizing s with
  | nil => simp [runCommands, recognizedCount]
  | cons c rest ih =>
      have hstep : runCommands s (c :: rest) = runCommands (execute s c).1 rest := rfl
      rw [hstep, ih]
      rw [execute_moves]
      by_cases hm : firstWord (normalize c) ∈ recognizedVerbs
      · simp [recognizedCount, List.filter_cons, hm]
        omega
      · simp [recognizedCount, List.filter_cons, hm]

/-- Inventory and taken-items stay equal along any playthrough that
starts with them equal. -/
theorem runCommands_sets (cmds : List String) (s : GameState)
    (h : s.inventory = s.taken_items) :
    (runCommands s cmds).inventory = (runCommands s cmds).taken_items := by
  induction cmds generalizing s with
  | nil => exact h
  | cons c rest ih =>
      have hstep : runCommands s (c :: rest) = runCommands (execute s c).1 rest := rfl
      rw [hstep]
      refine ih _ ?_
      rcases execute_sets s c with ⟨h1, h2⟩ | ⟨i, h1, h2⟩
      · rw [h1, h2, h]
      · rw [h1, h2, h]

/-! ### Reduction of concrete commands through the parser -/

theorem execute_take_eq (s : GameState) (i : ItemId) :
    execute s ("take " ++ itemName i) =
      takeHandler { s with moves := s.moves + 1 } (itemName i) := by
  cases i <;> rfl

theorem execute_use_flashlight (s : GameState) :
    execute s "use flashlight" =
      useHandler { s with moves := s.moves + 1 } "flashlight" := rfl

theorem execute_use_keycard (s : GameState) :
    execute s "use keycard" =
      useHandler { s with moves := s.moves + 1 } "keycard" := rfl

theorem execute_use_crew_log (s : GameState) :
    execute s "use crew log" =
      useHandler { s with moves := s.moves + 1 } "crew log" := rfl

theorem execute_read_crew_log (s : GameState) :
    execute s "read crew log" =
      readHandler { s with moves := s.moves + 1 } "crew log" := rfl

theorem execute_look (s : GameState) :
    execute s "look" = lookHandler { s with moves := s.moves + 1 } "" := rfl

/-! ### Behavior of `_take` on each item, by failure mode -/

@[simp] theorem underscore_itemName (i : ItemId) :
    underscoreToSpace (itemName i) = itemName i := by cases i <;> rfl

theorem itemName_ne_empty (i : ItemId) : ¬ itemName i = "" := by
  cases i <;> decide

/-- The `for item_id, item in ITEMS.items()` search of `_take`, when the
searched display name is item `i`'s: it hits exactly when `i`'s home
room is the current room (display names are distinct). -/
theorem takeLookup (r : RoomId) (i : ItemId) :
    itemsOrder.find? (fun j => itemName j == itemName i && itemLocation j == r) =
      (if itemLocation i = r then some i else none) := by
  cases i <;> cases r <;> decide

/-- Full case analysis of `_take` on a display name: absent from the
room, already taken, precondition blocked, or success. -/
theorem takeHandler_spec (s : GameState) (i : ItemId) :
    (itemLocation i ≠ s.current_room →
      takeHandler s (itemName i) =
        (s, "There's no '" ++ itemName i ++ "' here to take."))
    ∧ (itemLocation i = s.current_room → i ∈ s.taken_items →
      takeHandler s (itemName i) =
        (s, "You already took the " ++ itemName i ++ "."))
    ∧ (itemLocation i = s.current_room → i ∉ s.taken_items → takeBlocked s i = true →
      takeHandler s (itemName i) =
        (s, (takeFailText i).getD "You can't take that right now."))
    ∧ (itemLocation i = s.current_room → i ∉ s.taken_items → takeBlocked s i = false →
      takeHandler s (itemName i) =
        ({ s with inventory := s.inventory.insert i,
                  taken_items := s.taken_items.insert i },
         "You pick up the " ++ itemName i ++ ".")) := by
  have hne := itemName_ne_empty i
  simp only [takeHandler, if_neg hne, underscore_itemName, takeLookup]
  refine ⟨?_, ?_, ?_, ?_⟩
  · intro h
    rw [if_neg h]
  · intro h ht
    rw [if_pos h]
    simp [ht]
  · intro h ht hb
    rw [if_pos h]
    simp [ht, hb]
  · intro h ht hb
    rw [if_pos h]
    simp [ht, hb]

/-! ### Behavior of `_use` and `_read` on concrete items -/

theorem useFlashlight_dark (s : GameState) (hr : s.current_room = RoomId.engine_room)
    (hi : ItemId.flashlight ∈ s.inventory) (hl : s.flags.engine_room_lit = false) :
    useHandler s "flashlight" =
      ({ s with flags := { s.flags with engine_room_lit := true } },
       flashlightOnText) := by
  have hfind : itemsOrder.find? (fun i => itemName i == underscoreToSpace "flashlight") =
      some ItemId.flashlight := rfl
  simp [useHandler, hfind, hi, hr, hl]

theorem useFlashlight_lit (s : GameState) (hr : s.current_room = RoomId.engine_room)
    (hi : ItemId.flashlight ∈ s.inventory) (hl : s.flags.engine_room_lit = true) :
    useHandler s "flashlight" =
      (s, "The flashlight is already on. The room is lit.") := by
  have hfind : itemsOrder.find? (fun i => itemName i == underscoreToSpace "flashlight") =
      some ItemId.flashlight := rfl
  simp [useHandler, hfind, hi, hr, hl]

theorem useKeycard_bridge (s : GameState) (hr : s.current_room = RoomId.bridge)
    (hi : ItemId.keycard ∈ s.inventory) :
    useHandler s "keycard" =
      ({ s with flags := { s.flags with console_activated := true } },
       victoryText s.moves) := by
  have hfind : itemsOrder.find? (fun i => itemName i == underscoreToSpace "keycard") =
      some ItemId.keycard := rfl
  simp [useHandler, hfind, hi, hr]

theorem useCrewLog (s : GameState) (hi : ItemId.crew_log ∈ s.inventory) :
    useHandler s "crew log" = (s, "You read the crew log:\n\n" ++ crewLogReadText) := by
  have hfind : itemsOrder.find? (fun i => itemName i == underscoreToSpace "crew log") =
      some ItemId.crew_log := rfl
  simp [useHandler, hfind, hi]

theorem readCrewLog (s : GameState) (hi : ItemId.crew_log ∈ s.inventory) :
    readHandler s "crew log" = (s, "You read the crew log:\n\n" ++ crewLogReadText) := by
  have hu : underscoreToSpace "crew log" = "crew log" := rfl
  simp [readHandler, hu, hi]

/-- The blocked test of `_take`, phrased through the precondition flag. -/
theorem takeBlocked_true_iff (s : GameState) (i : ItemId) :
    takeBlocked s i = true ↔ ∃ c, takeCondition i = some c ∧ s.flags.get c = false := by
  cases htc : takeCondition i <;> simp [takeBlocked, htc]

/-- Negation of `takeBlocked_true_iff`. -/
theorem takeBlocked_false_iff (s : GameState) (i : ItemId) :
    takeBlocked s i = false ↔ ∀ c, takeCondition i = some c → s.flags.get c = true := by
  cases htc : takeCondition i <;> simp [takeBlocked, htc]

/-- Taking the keycard in the lit engine room succeeds. -/
theorem take_keycard_succeeds (t : GameState)
    (hr : t.current_room = RoomId.engine_room)
    (ht : ItemId.keycard ∉ t.taken_items)
    (hl : t.flags.engine_room_lit = true) :
    (execute t "take keycard").2 = "You pick up the keycard."
    ∧ ItemId.keycard ∈ (execute t "take keycard").1.inventory := by
  have h2 : execute t "take keycard" =
      takeHandler { t with moves := t.moves + 1 } (itemName ItemId.keycard) :=
    execute_take_eq t ItemId.keycard
  rw [h2]
  obtain ⟨-, -, -, hd⟩ := takeHandler_spec { t with moves := t.moves + 1 } ItemId.keycard
  have hb : takeBlocked { t with moves := t.moves + 1 } ItemId.keycard = false := by
    simp [takeBlocked, takeCondition, Flags.get, hl]
  rw [hd hr.symm ht hb]
  constructor
  · rfl
  · exact List.mem_insert_self _ _

/-! ## Claim theorems -/

/-- C1: for every engine state, `is_won()` is true iff the
`console_activated` flag is true; the flag is absorbing under
`execute`, and it becomes true only through a `use keycard` command
issued in the bridge room while the keycard is held. -/
theorem C1_won_flag_invariant (s : GameState) (command : String) :
    (is_won s = s.flags.console_activated)
    ∧ (s.flags.console_activated = true →
        (execute s command).1.flags.console_activated = true)
    ∧ ((execute s command).1.flags.console_activated = true →
        s.flags.console_activated = true
        ∨ (firstWord (normalize command) = "use"
            ∧ underscoreToSpace (restAfterFirst (normalize command)) = "keycard"
            ∧ s.current_room = RoomId.bridge ∧ ItemId.keycard ∈ s.inventory)) := by
  refine ⟨rfl, ?_, ?_⟩
  · intro h
    rcases execute_console s command with hc | ⟨hc, -⟩
    · rw [hc, h]
    · exact hc
  · intro h
    rcases execute_console s command with hc | ⟨-, h2⟩
    · rw [← hc]; exact Or.inl h
    · exact Or.inr h2

/-- Witness for C1 at a concrete won state and command. -/
theorem C1_witness :
    is_won wonExampleState = wonExampleState.flags.console_activated
    ∧ (execute wonExampleState "look").1.flags.console_activated = true :=
  ⟨(C1_won_flag_invariant wonExampleState "look").1,
   (C1_won_flag_invariant wonExampleState "look").2.1 (by decide)⟩

/-- C2: `execute` increments the move counter by exactly one when the
trimmed, lower-cased command's first word is a recognized verb, and
otherwise leaves the counter unchanged and returns a guidance
message. -/
theorem C2_move_counter (s : GameState) (command : String) :
    (firstWord (normalize command) ∈ recognizedVerbs →
      (execute s command).1.moves = s.moves + 1)
    ∧ (firstWord (normalize command) ∉ recognizedVerbs →
      (execute s command).1.moves = s.moves
      ∧ (execute s command).2 =
          (if normalize command = "" then "Say something. Type 'help' for commands."
           else "Unknown command: '" ++ firstWord (normalize command)
                  ++ "'. Type 'help' for commands.")) := by
  constructor
  · intro h
    rw [execute_moves, if_pos h]
  · intro h
    refine ⟨by rw [execute_moves, if_neg h], ?_⟩
    unfold execute
    split_ifs with h1
    · rfl
    · rw [(executeVerb_moves s _ _).2 h]

/-- Witness for C2: `look` increments the counter, `dance` does not. -/
theorem C2_witness :
    (execute initState "look").1.moves = initState.moves + 1
    ∧ (execute initState "dance").1.moves = initState.moves :=
  ⟨(C2_move_counter initState "look").1 (by decide),
   ((C2_move_counter initState "dance").2 (by decide)).1⟩

/-- C3: full case analysis of `take <display name>`: no such item in
the current room, already taken (no duplicate is ever added), blocked
precondition (the item's specific failure text), and success (added to
both inventory and taken-items). -/
theorem C3_take_semantics (s : GameState) (i : ItemId) :
    (itemLocation i ≠ s.current_room →
      (execute s ("take " ++ itemName i)).2 =
          "There's no '" ++ itemName i ++ "' here to take."
      ∧ (execute s ("take " ++ itemName i)).1.inventory = s.inventory
      ∧ (execute s ("take " ++ itemName i)).1.taken_items = s.taken_items)
    ∧ (itemLocation i = s.current_room → i ∈ s.taken_items →
      (execute s ("take " ++ itemName i)).2 = "You already took the " ++ itemName i ++ "."
      ∧ (execute s ("take " ++ itemName i)).1.inventory = s.inventory
      ∧ (execute s ("take " ++ itemName i)).1.taken_items = s.taken_items)
    ∧ (itemLocation i = s.current_room → i ∉ s.taken_items →
        (∃ c, takeCondition i = some c ∧ s.flags.get c = false) →
      (execute s ("take " ++ itemName i)).2 =
          (takeFailText i).getD "You can't take that right now."
      ∧ (execute s ("take " ++ itemName i)).1.inventory = s.inventory
      ∧ (execute s ("take " ++ itemName i)).1.taken_items = s.taken_items)
    ∧ (itemLocation i = s.current_room → i ∉ s.taken_items →
        (∀ c, takeCondition i = some c → s.flags.get c = true) →
      (execute s ("take " ++ itemName i)).1.inventory = s.inventory.insert i
      ∧ (execute s ("take " ++ itemName i)).1.taken_items = s.taken_items.insert i
      ∧ (execute s ("take " ++ itemName i)).2 = "You pick up the " ++ itemName i ++ ".") := by
  rw [execute_take_eq]
  obtain ⟨ha, hb, hc, hd⟩ := takeHandler_spec { s with moves := s.moves + 1 } i
  refine ⟨?_, ?_, ?_, ?_⟩
  · intro h
    rw [ha h]
    exact ⟨rfl, rfl, rfl⟩
  · intro h ht
    rw [hb h ht]
    exact ⟨rfl, rfl, rfl⟩
  · intro h ht hcond
    rw [hc h ht ((takeBlocked_true_iff _ i).2 hcond)]
    exact ⟨rfl, rfl, rfl⟩
  · intro h ht hcond
    rw [hd h ht ((takeBlocked_false_iff _ i).2 hcond)]
    exact ⟨rfl, rfl, rfl⟩

/-- Witness for C3: re-taking the crew log in the med bay returns the
already-took narrative and leaves the inventory unchanged. -/
theorem C3_witness :
    (execute crewLogState "take crew log").2 = "You already took the crew log."
    ∧ (execute crewLogState "take crew log").1.inventory = crewLogState.inventory :=
  ⟨((C3_take_semantics crewLogState ItemId.crew_log).2.1 (by decide) (by decide)).1,
   ((C3_take_semantics crewLogState ItemId.crew_log).2.1 (by decide) (by decide)).2.1⟩

/-- C4 counterexample: re-using the flashlight in the lit engine room
(a reachable state) does return the already-on narrative, but the
resulting state differs from the previous one — the move counter has
advanced — so "leaves the state unchanged" fails as stated. -/
theorem C4_counterexample :
    (execute litEngineState "use flashlight").2 =
        "The flashlight is already on. The room is lit."
    ∧ (execute litEngineState "use flashlight").1 ≠ litEngineState := by
  decide

/-- C4 (amended): using the flashlight in the dark engine room sets the
illumination flag and makes a subsequent `take keycard` there succeed;
using it again when lit returns the already-on narrative and leaves all
state except the move counter unchanged. -/
theorem C4_flashlight_amended (s : GameState)
    (hr : s.current_room = RoomId.engine_room)
    (hi : ItemId.flashlight ∈ s.inventory) :
    (s.flags.engine_room_lit = false →
      (execute s "use flashlight").1.flags.engine_room_lit = true
      ∧ (execute s "use flashlight").2 = flashlightOnText
      ∧ (ItemId.keycard ∉ s.taken_items →
          (execute (execute s "use flashlight").1 "take keycard").2 =
              "You pick up the keycard."
          ∧ ItemId.keycard ∈
              (execute (execute s "use flashlight").1 "take keycard").1.inventory))
    ∧ (s.flags.engine_room_lit = true →
      (execute s "use flashlight").2 = "The flashlight is already on. The room is lit."
      ∧ (execute s "use flashlight").1 = { s with moves := s.moves + 1 }) := by
  constructor
  · intro hl
    rw [execute_use_flashlight,
        useFlashlight_dark { s with moves := s.moves + 1 } hr hi hl]
    exact ⟨rfl, rfl, fun ht => take_keycard_succeeds _ hr ht rfl⟩
  · intro hl
    rw [execute_use_flashlight,
        useFlashlight_lit { s with moves := s.moves + 1 } hr hi hl]
    exact ⟨rfl, rfl⟩

/-- Witness for the amended C4 on the reachable dark-engine-room
state. -/
theorem C4_witness :
    (execute darkFlashlightState "use flashlight").1.flags.engine_room_lit = true
    ∧ (execute (execute darkFlashlightState "use flashlight").1 "take keycard").2 =
        "You pick up the keycard." :=
  ⟨((C4_flashlight_amended darkFlashlightState (by decide) (by decide)).1 (by decide)).1,
   (((C4_flashlight_amended darkFlashlightState (by decide) (by decide)).1 (by decide)).2.2
      (by decide)).1⟩

/-- C5: from any playthrough that reaches the bridge holding the
keycard, `use keycard` sets the terminal flag, makes `is_won()` true,
and returns the victory narrative embedding the recognized-command
count including this winning command; and the only command that turns
`is_won()` from false to true is a `use keycard` issued on the bridge
with the keycard held. -/
theorem C5_keycard_victory (cmds : List String) (s : GameState) (command : String) :
    ((runCommands initState cmds).current_room = RoomId.bridge →
      ItemId.keycard ∈ (runCommands initState cmds).inventory →
      (execute (runCommands initState cmds) "use keycard").1.flags.console_activated = true
      ∧ is_won (execute (runCommands initState cmds) "use keycard").1 = true
      ∧ (execute (runCommands initState cmds) "use keycard").2 =
          victoryText (recognizedCount cmds + 1))
    ∧ (is_won (execute s command).1 = true → is_won s = false →
        firstWord (normalize command) = "use"
        ∧ underscoreToSpace (restAfterFirst (normalize command)) = "keycard"
        ∧ s.current_room = RoomId.bridge ∧ ItemId.keycard ∈ s.inventory) := by
  constructor
  · intro hr hi
    rw [execute_use_keycard,
        useKeycard_bridge { (runCommands initState cmds) with
          moves := (runCommands initState cmds).moves + 1 } hr hi]
    refine ⟨rfl, rfl, ?_⟩
    have hm : (runCommands initState cmds).moves = recognizedCount cmds := by
      have := runCommands_moves cmds initState
      simpa [initState] using this
    show victoryText ((runCommands initState cmds).moves + 1) = _
    rw [hm]
  · intro hw hnw
    have hw' : (execute s command).1.flags.console_activated = true := hw
    have hnw' : s.flags.console_activated = false := hnw
    rcases execute_console s command with hc | ⟨-, h2⟩
    · rw [hnw'] at hc
      rw [hc] at hw'
      exact absurd hw' (by decide)
    · exact h2

/-- Witness for C5: the seven-command walkthrough wins on the eighth
recognized command, and the narrative embeds the count 8. -/
theorem C5_witness :
    (execute (runCommands initState preWinTrace) "use keycard").2 = victoryText 8
    ∧ is_won (execute (runCommands initState preWinTrace) "use keycard").1 = true :=
  ⟨((C5_keycard_victory preWinTrace initState "look").1 (by decide) (by decide)).2.2,
   ((C5_keycard_victory preWinTrace initState "look").1 (by decide) (by decide)).2.1⟩

/-- C6: the `look` narrative and the room-description text of a
successful `go` (`_enter_room`) are pure functions of (current room,
flags, taken-items): states agreeing there produce identical text. -/
theorem C6_look_purity (s1 s2 : GameState)
    (hr : s1.current_room = s2.current_room)
    (hf : s1.flags = s2.flags)
    (ht : s1.taken_items = s2.taken_items) :
    (execute s1 "look").2 = (execute s2 "look").2
    ∧ enterRoomText s1 = enterRoomText s2 := by
  constructor
  · rw [execute_look, execute_look]
    simp only [lookHandler, hr, hf, ht]
    split_ifs <;> rfl
  · simp [enterRoomText, hr, hf, ht]

/-- Witness for C6 at two concrete states differing in inventory and
move count. -/
theorem C6_witness :
    (execute pureStateA "look").2 = (execute pureStateB "look").2 :=
  (C6_look_purity pureStateA pureStateB (by decide) (by decide) (by decide)).1

/-- C7: with the crew log held, `use crew log` and `read crew log`
return identical state and narrative. -/
theorem C7_use_read_equiv (s : GameState) (h : ItemId.crew_log ∈ s.inventory) :
    execute s "use crew log" = execute s "read crew log" := by
  rw [execute_use_crew_log, execute_read_crew_log,
      useCrewLog { s with moves := s.moves + 1 } h,
      readCrewLog { s with moves := s.moves + 1 } h]

/-- Witness for C7 at the reachable crew-log state. -/
theorem C7_witness :
    execute crewLogState "use crew log" = execute crewLogState "read crew log" :=
  C7_use_read_equiv crewLogState (by decide)

/-- C10: from a fresh engine, inventory and taken-items are always
equal; each `execute` step either leaves both sets unchanged or inserts
the same item into both, and never removes from either. -/
theorem C10_inventory_taken_equal (cmds : List String) (s : GameState) (command : String) :
    ((runCommands initState cmds).inventory = (runCommands initState cmds).taken_items)
    ∧ (s.inventory ⊆ (execute s command).1.inventory
        ∧ s.taken_items ⊆ (execute s command).1.taken_items)
    ∧ (((execute s command).1.inventory = s.inventory
          ∧ (execute s command).1.taken_items = s.taken_items)
        ∨ ∃ i, (execute s command).1.inventory = s.inventory.insert i
            ∧ (execute s command).1.taken_items = s.taken_items.insert i) := by
  refine ⟨runCommands_sets cmds initState rfl, ?_, execute_sets s command⟩
  rcases execute_sets s command with ⟨h1, h2⟩ | ⟨i, h1, h2⟩
  · rw [h1, h2]
    exact ⟨fun x hx => hx, fun x hx => hx⟩
  · rw [h1, h2]
    constructor <;> intro x hx <;> simp [List.mem_insert_iff, hx]

/-! ## Helper lemmas about the controller loops -/

@[simp] theorem tokensOfPrefix_zero {α : Type} (f : α → Nat) (resps : List α) :
    tokensOfPrefix f resps 0 = 0 := by
  simp [tokensOfPrefix]

theorem tokensOfPrefix_succ {α : Type} (f : α → Nat) (o : α) (rest : List α) (k : Nat) :
    tokensOfPrefix f (o :: rest) (k + 1) = f o + tokensOfPrefix f rest k := by
  simp [tokensOfPrefix]

/-- An at-or-over-budget bash loop terminates immediately with the
token-limit reason, consuming no provider reply. -/
theorem bash_budget_stop {RS : Type} (runCmd : RS → String → RS × String)
    (checkWin : RS → Bool) (limit : Nat) (st : BashState RS)
    (resps : List (Option BashResp))
    (h : st.total_prompt_tokens + st.total_completion_tokens ≥ limit) :
    runBashEval runCmd checkWin limit st resps = ⟨st, false, false, .tokenLimit⟩ := by
  cases resps with
  | nil => rw [runBashEval, if_pos h]
  | cons o rest => cases o with
    | none => rw [runBashEval, if_pos h]
    | some r => rw [runBashEval, if_pos h]

/-- One under-budget bash turn either terminates (having consumed
exactly one reply) or recurses with the token totals advanced by that
reply's usage. -/
theorem bash_step_shape {RS : Type} (runCmd : RS → String → RS × String)
    (checkWin : RS → Bool) (limit : Nat) (st : BashState RS) (r : BashResp)
    (rest : List (Option BashResp))
    (hb : ¬ st.total_prompt_tokens + st.total_completion_tokens ≥ limit) :
    (runBashEval runCmd checkWin limit st (some r :: rest)).final.providerCalls
        = st.providerCalls + 1
    ∨ ∃ st', runBashEval runCmd checkWin limit st (some r :: rest)
            = runBashEval runCmd checkWin limit st' rest
        ∧ st'.providerCalls = st.providerCalls + 1
        ∧ st'.total_prompt_tokens = st.total_prompt_tokens + r.prompt_tokens
        ∧ st'.total_completion_tokens = st.total_completion_tokens + r.completion_tokens := by
  simp only [runBashEval, if_neg hb]
  split
  · exact Or.inl rfl
  · split
    · split
      · exact Or.inl rfl
      · exact Or.inr ⟨_, rfl, rfl, rfl, rfl⟩
    · split
      · exact Or.inl rfl
      · exact Or.inr ⟨_, rfl, rfl, rfl, rfl⟩

/-- Every provider request the bash loop issues happens strictly under
the budget: before the `k`-th consumed reply, the cumulative total was
below the limit. -/
theorem bash_calls_under_budget {RS : Type} (runCmd : RS → String → RS × String)
    (checkWin : RS → Bool) (limit : Nat) (st : BashState RS)
    (resps : List (Option BashResp)) (k : Nat)
    (hk : st.providerCalls + k <
        (runBashEval runCmd checkWin limit st resps).final.providerCalls) :
    st.total_prompt_tokens + st.total_completion_tokens
      + tokensOfPrefix bashRespTokens resps k < limit := by
  induction resps generalizing st k with
  | nil =>
      rw [runBashEval] at hk
      split_ifs at hk <;> simp at hk
  | cons o rest ih =>
      by_cases hb : st.total_prompt_tokens + st.total_completion_tokens ≥ limit
      · rw [bash_budget_stop runCmd checkWin limit st _ hb] at hk
        simp at hk
      · cases o with
        | none =>
            rw [runBashEval, if_neg hb] at hk
            simp at hk
            have hk0 : k = 0 := by omega
            subst hk0
            simp
            omega
        | some r =>
            rcases bash_step_shape runCmd checkWin limit st r rest hb
              with h1 | ⟨st', heq, hc, hp, hcc⟩
            · rw [h1] at hk
              have hk0 : k = 0 := by omega
              subst hk0
              simp
              omega
            · cases k with
              | zero =>
                  simp
                  omega
              | succ k =>
                  rw [heq] at hk
                  have hk' : st'.providerCalls + k <
                      (runBashEval runCmd checkWin limit st' rest).final.providerCalls := by
                    rw [hc]; omega
                  have hrec := ih st' k hk'
                  rw [hp, hcc] at hrec
                  rw [tokensOfPrefix_succ]
                  simp [bashRespTokens]
                  omega

/-- MCP analog of `bash_budget_stop`. -/
theorem mcp_budget_stop (limit : Nat) (st : McpState) (resps : List (Option McpResp))
    (h : st.total_prompt_tokens + st.total_completion_tokens ≥ limit) :
    runMcpEval limit st resps = ⟨st, false, false, .tokenLimit⟩ := by
  cases resps with
  | nil => rw [runMcpEval, if_pos h]
  | cons o rest => cases o with
    | none => rw [runMcpEval, if_pos h]
    | some r => rw [runMcpEval, if_pos h]

/-- MCP analog of `bash_step_shape`. -/
theorem mcp_step_shape (limit : Nat) (st : McpState) (r : McpResp)
    (rest : List (Option McpResp))
    (hb : ¬ st.total_prompt_tokens + st.total_completion_tokens ≥ limit) :
    (runMcpEval limit st (some r :: rest)).final.providerCalls = st.providerCalls + 1
    ∨ ∃ st', runMcpEval limit st (some r :: rest) = runMcpEval limit st' rest
        ∧ st'.providerCalls = st.providerCalls + 1
        ∧ st'.total_prompt_tokens = st.total_prompt_tokens + r.prompt_tokens
        ∧ st'.total_completion_tokens = st.total_completion_tokens + r.completion_tokens := by
  simp only [runMcpEval, if_neg hb]
  split
  · split
    · exact Or.inl rfl
    · exact Or.inr ⟨_, rfl, rfl, rfl, rfl⟩
  · split
    · split
      · split
        · exact Or.inl rfl
        · exact Or.inr ⟨_, rfl, rfl, rfl, rfl⟩
      · split
        · exact Or.inl rfl
        · exact Or.inr ⟨_, rfl, rfl, rfl, rfl⟩
    · split
      · exact Or.inl rfl
      · exact Or.inr ⟨_, rfl, rfl, rfl, rfl⟩

/-- MCP analog of `bash_calls_under_budget`. -/
theorem mcp_calls_under_budget (limit : Nat) (st : McpState)
    (resps : List (Option McpResp)) (k : Nat)
    (hk : st.providerCalls + k < (runMcpEval limit st resps).final.providerCalls) :
    st.total_prompt_tokens + st.total_completion_tokens
      + tokensOfPrefix mcpRespTokens resps k < limit := by
  induction resps generalizing st k with
  | nil =>
      rw [runMcpEval] at hk
      split_ifs at hk <;> simp at hk
  | cons o rest ih =>
      by_cases hb : st.total_prompt_tokens + st.total_completion_tokens ≥ limit
      · rw [mcp_budget_stop limit st _ hb] at hk
        simp at hk
      · cases o with
        | none =>
            rw [runMcpEval, if_neg hb] at hk
            simp at hk
            have hk0 : k = 0 := by omega
            subst hk0
            simp
            omega
        | some r =>
            rcases mcp_step_shape limit st r rest hb
              with h1 | ⟨st', heq, hc, hp, hcc⟩
            · rw [h1] at hk
              have hk0 : k = 0 := by omega
              subst hk0
              simp
              omega
            · cases k with
              | zero =>
                  simp
                  omega
              | succ k =>
                  rw [heq] at hk
                  have hk' : st'.providerCalls + k <
                      (runMcpEval limit st' rest).final.providerCalls := by
                    rw [hc]; omega
                  have hrec := ih st' k hk'
                  rw [hp, hcc] at hrec
                  rw [tokensOfPrefix_succ]
                  simp [mcpRespTokens]
                  omega

/-- A bash turn whose reply contains the give-up keyword terminates with
the gave-up outcome, touching neither the runner nor the command log. -/
theorem bash_giveup_step {RS : Type} (runCmd : RS → String → RS × String)
    (checkWin : RS → Bool) (limit : Nat) (st : BashState RS) (r : BashResp)
    (rest : List (Option BashResp))
    (hb : ¬ st.total_prompt_tokens + st.total_completion_tokens ≥ limit)
    (hg : containsGiveUp (pyStrip r.content) = true) :
    runBashEval runCmd checkWin limit st (some r :: rest) =
      ⟨{ st with
          providerCalls := st.providerCalls + 1,
          total_prompt_tokens := st.total_prompt_tokens + r.prompt_tokens,
          total_completion_tokens := st.total_completion_tokens + r.completion_tokens,
          turns := st.turns + 1 }, false, true, .gaveUp⟩ := by
  simp only [runBashEval, if_neg hb]
  rw [if_pos hg]

/-- An MCP turn with no tool calls whose non-empty content contains the
give-up keyword terminates with the gave-up outcome, touching neither
the engine nor the tool-call log. -/
theorem mcp_giveup_step (limit : Nat) (st : McpState) (r : McpResp)
    (rest : List (Option McpResp)) (c : String)
    (hb : ¬ st.total_prompt_tokens + st.total_completion_tokens ≥ limit)
    (htc : r.tool_calls = []) (hcon : r.content = some c) (hne : c ≠ "")
    (hg : containsGiveUp (pyStrip c) = true) :
    runMcpEval limit st (some r :: rest) =
      ⟨{ st with
          providerCalls := st.providerCalls + 1,
          total_prompt_tokens := st.total_prompt_tokens + r.prompt_tokens,
          total_completion_tokens := st.total_completion_tokens + r.completion_tokens,
          turns := st.turns + 1 }, false, true, .gaveUp⟩ := by
  simp only [runMcpEval, if_neg hb, htc, hcon]
  simp [hne, hg]

/-- C8: in both modalities the budget check precedes every provider
request: an at-or-over-budget loop terminates at once with the
token-limit reason and makes no call, and each consumed reply was
requested while the cumulative prompt+completion total of what came
before it was strictly under the limit. -/
theorem C8_token_budget :
    (∀ (RS : Type) (runCmd : RS → String → RS × String) (checkWin : RS → Bool)
        (limit : Nat) (st : BashState RS) (resps : List (Option BashResp)),
      (st.total_prompt_tokens + st.total_completion_tokens ≥ limit →
        runBashEval runCmd checkWin limit st resps = ⟨st, false, false, .tokenLimit⟩)
      ∧ ∀ k, st.providerCalls + k <
            (runBashEval runCmd checkWin limit st resps).final.providerCalls →
          st.total_prompt_tokens + st.total_completion_tokens
            + tokensOfPrefix bashRespTokens resps k < limit)
    ∧ (∀ (limit : Nat) (st : McpState) (resps : List (Option McpResp)),
      (st.total_prompt_tokens + st.total_completion_tokens ≥ limit →
        runMcpEval limit st resps = ⟨st, false, false, .tokenLimit⟩)
      ∧ ∀ k, st.providerCalls + k < (runMcpEval limit st resps).final.providerCalls →
          st.total_prompt_tokens + st.total_completion_tokens
            + tokensOfPrefix mcpRespTokens resps k < limit) :=
  ⟨fun _RS runCmd checkWin limit st resps =>
      ⟨bash_budget_stop runCmd checkWin limit st resps,
       fun k hk => bash_calls_under_budget runCmd checkWin limit st resps k hk⟩,
   fun limit st resps =>
      ⟨mcp_budget_stop limit st resps,
       fun k hk => mcp_calls_under_budget limit st resps k hk⟩⟩

/-- Witness for C8 at concrete limits, states and reply sequences in
both modalities. -/
theorem C8_witness :
    runBashEval (fun u _ => (u, "")) (fun _ => false) 0 bashInitUnit [] =
      ⟨bashInitUnit, false, false, .tokenLimit⟩
    ∧ (0 + 0 + tokensOfPrefix bashRespTokens [some ⟨"hi", 3, 4⟩] 0 < 10)
    ∧ runMcpEval 0 mcpInit [] = ⟨mcpInit, false, false, .tokenLimit⟩
    ∧ (0 + 0 + tokensOfPrefix mcpRespTokens [some ⟨some "hi", [], 3, 4⟩] 0 < 10) :=
  ⟨(C8_token_budget.1 Unit (fun u _ => (u, "")) (fun _ => false) 0 bashInitUnit []).1
      (by decide),
   (C8_token_budget.1 Unit (fun u _ => (u, "")) (fun _ => false) 10 bashInitUnit
      [some ⟨"hi", 3, 4⟩]).2 0 (by decide),
   (C8_token_budget.2 0 mcpInit []).1 (by decide),
   (C8_token_budget.2 10 mcpInit [some ⟨some "hi", [], 3, 4⟩]).2 0 (by decide)⟩

/-- C9 counterexample: an MCP reply that carries both a tool call and
give-up content executes the engine command (the move counter advances
and the tool-call log grows) and the playthrough does not end with the
gave-up outcome — the give-up keyword is only examined in the branch
with no tool calls. -/
theorem C9_counterexample :
    giveUpToolResp.content = some "GIVE_UP"
    ∧ containsGiveUp (pyStrip "GIVE_UP") = true
    ∧ giveUpToolResp.tool_calls ≠ []
    ∧ (runMcpEval 100 mcpInit [some giveUpToolResp]).gave_up = false
    ∧ (runMcpEval 100 mcpInit [some giveUpToolResp]).reason ≠ .gaveUp
    ∧ (runMcpEval 100 mcpInit [some giveUpToolResp]).final.engine.moves = 1
    ∧ (runMcpEval 100 mcpInit [some giveUpToolResp]).final.tool_calls_log ≠ [] := by
  decide

/-- C9 (amended): in the text modality, a reply containing the give-up
keyword (case-insensitive substring) always terminates the playthrough
with the gave-up outcome before any shell command of that turn runs;
in the tool-call modality the same holds only for replies carrying no
tool calls and non-empty content. -/
theorem C9_give_up_scoped :
    (∀ (RS : Type) (runCmd : RS → String → RS × String) (checkWin : RS → Bool)
        (limit : Nat) (st : BashState RS) (r : BashResp) (rest : List (Option BashResp)),
      st.total_prompt_tokens + st.total_completion_tokens < limit →
      containsGiveUp (pyStrip r.content) = true →
        runBashEval runCmd checkWin limit st (some r :: rest) =
          ⟨{ st with
              providerCalls := st.providerCalls + 1,
              total_prompt_tokens := st.total_prompt_tokens + r.prompt_tokens,
              total_completion_tokens := st.total_completion_tokens + r.completion_tokens,
              turns := st.turns + 1 }, false, true, .gaveUp⟩)
    ∧ (∀ (limit : Nat) (st : McpState) (r : McpResp) (c : String)
        (rest : List (Option McpResp)),
      st.total_prompt_tokens + st.total_completion_tokens < limit →
      r.tool_calls = [] → r.content = some c → c ≠ "" →
      containsGiveUp (pyStrip c) = true →
        runMcpEval limit st (some r :: rest) =
          ⟨{ st with
              providerCalls := st.providerCalls + 1,
              total_prompt_tokens := st.total_prompt_tokens + r.prompt_tokens,
              total_completion_tokens := st.total_completion_tokens + r.completion_tokens,
              turns := st.turns + 1 }, false, true, .gaveUp⟩) :=
  ⟨fun _RS runCmd checkWin limit st r rest hb hg =>
      bash_giveup_step runCmd checkWin limit st r rest (by omega) hg,
   fun limit st r c rest hb htc hcon hne hg =>
      mcp_giveup_step limit st r rest c (by omega) htc hcon hne hg⟩

/-- Witness for the amended C9 at concrete give-up replies in both
modalities (lower-case keyword, engine untouched). -/
theorem C9_witness :
    (runBashEval (fun u _ => (u, "")) (fun _ => false) 100 bashInitUnit
        [some ⟨"GIVE_UP", 3, 4⟩]).gave_up = true
    ∧ (runMcpEval 100 mcpInit [some ⟨some "  give_up", [], 1, 2⟩]).gave_up = true
    ∧ (runMcpEval 100 mcpInit [some ⟨some "  give_up", [], 1, 2⟩]).final.engine =
        mcpInit.engine := by
  have h1 := C9_give_up_scoped.1 Unit (fun u _ => (u, "")) (fun _ => false) 100 bashInitUnit
    ⟨"GIVE_UP", 3, 4⟩ [] (by decide) (by decide)
  have h2 := C9_give_up_scoped.2 100 mcpInit ⟨some "  give_up", [], 1, 2⟩ "  give_up" []
    (by decide) (by decide) rfl (by decide) (by decide)
  rw [h1, h2]
  exact ⟨rfl, rfl, rfl⟩

end Adventure
